import Mathlib

/-!
Verification of the Nervos CKB NFT type script (contracts/nft/src/main.rs)
against its natural-language specification.

Bytes are modelled as natural numbers (values below 256 on real chain data),
byte strings as `List Nat`, and the 128-bit quantity arithmetic as `Nat`
with explicit bounds at `2 ^ 128`.  Fallible code returns `Except` or an
explicit result type carrying the panic outcomes of the Rust code.
-/

/-! ## Byte-level utilities -/

def MOD64 : Nat := 18446744073709551616

def U32_MOD : Nat := 4294967296

def U128_MOD : Nat := 340282366920938463463374607431768211456

/-- Value of a little-endian byte string (first byte least significant). -/
def leBytesToNat (bs : List Nat) : Nat := bs.foldr (fun b acc => acc * 256 + b) 0

/-- Little-endian byte string of fixed width, as Rust to_le_bytes. -/
def natToLeBytes : Nat → Nat → List Nat
  | 0, _ => []
  | n + 1, q => (q % 256) :: natToLeBytes n (q / 256)

/-- Embeds Rust (x as u32).to_le_bytes(). -/
def u32LeBytes (n : Nat) : List Nat := natToLeBytes 4 (n % U32_MOD)

/-! ## Blake2b-256 with the ckb-default-hash personalization

This embeds the `blake2b_ref` hashing used by `calculate_instance_id`
(digest length 32, personalization "ckb-default-hash"). -/

def rotr64 (x : Nat) (n : Nat) : Nat :=
  ((x >>> n) ||| (x <<< (64 - n))) % MOD64

def blakeIV : List Nat :=
  [0x6a09e667f3bcc908, 0xbb67ae8584caa73b, 0x3c6ef372fe94f82b, 0xa54ff53a5f1d36f1,
   0x510e527fade682d1, 0x9b05688c2b3e6c1f, 0x1f83d9abfb41bd6b, 0x5be0cd19137e2179]

def blakeSigma : List (List Nat) :=
  [[0,1,2,3,4,5,6,7,8,9,10,11,12,13,14,15],
   [14,10,4,8,9,15,13,6,1,12,0,2,11,7,5,3],
   [11,8,12,0,5,2,15,13,10,14,3,6,7,1,9,4],
   [7,9,3,1,13,12,11,14,2,6,5,10,4,0,15,8],
   [9,0,5,7,2,4,10,15,14,1,11,12,6,8,3,13],
   [2,12,6,10,0,11,8,3,4,13,7,5,15,14,1,9],
   [12,5,1,15,14,13,4,10,0,7,6,3,9,2,8,11],
   [13,11,7,14,12,1,3,9,5,0,15,4,8,6,2,10],
   [6,15,14,9,11,3,0,8,12,2,13,7,1,4,10,5],
   [10,2,8,4,7,6,1,5,15,11,9,14,3,12,13,0]]

def gMix (v : List Nat) (a b c d : Nat) (x y : Nat) : List Nat :=
  let va := v.getD a 0
  let vb := v.getD b 0
  let vc := v.getD c 0
  let vd := v.getD d 0
  let va := (va + vb + x) % MOD64
  let vd := rotr64 (vd ^^^ va) 32
  let vc := (vc + vd) % MOD64
  let vb := rotr64 (vb ^^^ vc) 24
  let va := (va + vb + y) % MOD64
  let vd := rotr64 (vd ^^^ va) 16
  let vc := (vc + vd) % MOD64
  let vb := rotr64 (vb ^^^ vc) 63
  (((v.set a va).set b vb).set c vc).set d vd

def blakeRound (m : List Nat) (v : List Nat) (s : List Nat) : List Nat :=
  let mi := fun i => m.getD (s.getD i 0) 0
  let v := gMix v 0 4 8 12 (mi 0) (mi 1)
  let v := gMix v 1 5 9 13 (mi 2) (mi 3)
  let v := gMix v 2 6 10 14 (mi 4) (mi 5)
  let v := gMix v 3 7 11 15 (mi 6) (mi 7)
  let v := gMix v 0 5 10 15 (mi 8) (mi 9)
  let v := gMix v 1 6 11 12 (mi 10) (mi 11)
  let v := gMix v 2 7 8 13 (mi 12) (mi 13)
  gMix v 3 4 9 14 (mi 14) (mi 15)

def blakeCompress (h : List Nat) (m : List Nat) (t : Nat) (last : Bool) : List Nat :=
  let v := h ++ blakeIV
  let v := v.set 12 ((v.getD 12 0) ^^^ (t % MOD64))
  let v := v.set 13 ((v.getD 13 0) ^^^ ((t / MOD64) % MOD64))
  let v := if last then v.set 14 ((v.getD 14 0) ^^^ (MOD64 - 1)) else v
  let v := (List.range 12).foldl (fun v r => blakeRound m v (blakeSigma.getD (r % 10) [])) v
  (List.range 8).map (fun i => (h.getD i 0) ^^^ (v.getD i 0) ^^^ (v.getD (i + 8) 0))

def padTo (n : Nat) (bs : List Nat) : List Nat := bs ++ List.replicate (n - bs.length) 0

def blockWords (block : List Nat) : List Nat :=
  (List.range 16).map (fun i => leBytesToNat ((block.drop (8 * i)).take 8))

/-- Byte string of the personalization "ckb-default-hash". -/
def ckbPersonal : List Nat :=
  [0x63,0x6b,0x62,0x2d,0x64,0x65,0x66,0x61,0x75,0x6c,0x74,0x2d,0x68,0x61,0x73,0x68]

def blake2bInit : List Nat :=
  let h := blakeIV
  let h := h.set 0 ((h.getD 0 0) ^^^ 0x01010020)
  let h := h.set 6 ((h.getD 6 0) ^^^ leBytesToNat (ckbPersonal.take 8))
  h.set 7 ((h.getD 7 0) ^^^ leBytesToNat (ckbPersonal.drop 8))

/-- Blake2b with 32-byte digest and personalization "ckb-default-hash",
the hash configured by `calculate_instance_id` in main.rs. -/
def ckbBlake2b256 (msg : List Nat) : List Nat :=
  let len := msg.length
  let nblocks := max 1 ((len + 127) / 128)
  let h := (List.range nblocks).foldl (fun h i =>
    let last := i + 1 = nblocks
    let block := padTo 128 ((msg.drop (128 * i)).take 128)
    let t := if last then len else 128 * (i + 1)
    blakeCompress h (blockWords block) t last) blake2bInit
  (List.range 32).map (fun i => ((h.getD (i / 8) 0) >>> (8 * (i % 8))) % 256)

/-! ## Constants from main.rs -/

def BLAKE2B256_HASH_LEN : Nat := 32

def CODE_HASH_NULL : List Nat := List.replicate 32 0

def INSTANCE_ID_LEN : Nat := 32

def QUANTITY_LEN : Nat := 16

def TOKEN_LOGIC_LEN : Nat := 32

def ARGS_LEN : Nat := 32

/-! ## Error type from main.rs -/

/-- Local error values of the validator (main.rs `enum Error`). -/
inductive Error where
  | IndexOutOfBound
  | ItemMissing
  | LengthNotEnough
  | Encoding
  | InvalidArgsLen
  | InvalidInstanceId
  | InvalidInstanceIdLength
  | InvalidQuantity
  | InvalidQuantityLength
  | InvalidStructure
  | InvalidTokenLogicCellDep
  | InvalidTokenLogicLength
  | MissingTokenLogicCellDep
  | MissingTokenLogicFunction
  | UnauthorizedOperation
  | UnexpectedCellMismatch
deriving DecidableEq, Repr

/-- Numeric discriminants of `enum Error` (`#[repr(i8)]`, 100 onward for
the custom errors), as used by `err as i8` in program_entry. -/
def errorCode : Error → Int
  | .IndexOutOfBound => 1
  | .ItemMissing => 2
  | .LengthNotEnough => 3
  | .Encoding => 4
  | .InvalidArgsLen => 100
  | .InvalidInstanceId => 101
  | .InvalidInstanceIdLength => 102
  | .InvalidQuantity => 103
  | .InvalidQuantityLength => 104
  | .InvalidStructure => 105
  | .InvalidTokenLogicCellDep => 106
  | .InvalidTokenLogicLength => 107
  | .MissingTokenLogicCellDep => 108
  | .MissingTokenLogicFunction => 109
  | .UnauthorizedOperation => 110
  | .UnexpectedCellMismatch => 111

deriving instance DecidableEq for Except

/-! ## NFT data model (main.rs `NftData`, `NftDataResolved`) -/

/-- Parsed values of an NFT data field (struct NftData). -/
structure NftData where
  instance_id : List Nat
  quantity : Option Nat
  token_logic : Option (List Nat)
  custom : Option (List Nat)
deriving DecidableEq, Repr

/-- Absolute (resolved) values of NFT data (struct NftDataResolved). -/
structure NftDataResolved where
  instance_id : List Nat
  quantity : Nat
  token_logic : List Nat
  custom : List Nat
deriving DecidableEq, Repr

/-- Embeds `impl From<&NftData> for NftDataResolved`. -/
def NftDataResolved.fromData (nft_data : NftData) : NftDataResolved where
  instance_id := nft_data.instance_id
  quantity := nft_data.quantity.getD 1
  token_logic := nft_data.token_logic.getD CODE_HASH_NULL
  custom := nft_data.custom.getD []

/-! ## Payload codec (parse_nft_data / validate_nft_data) -/

/-- Embeds `parse_nft_data` from main.rs: sequential extraction of
instance id, optional quantity (little-endian u128), optional token
logic hash and optional custom tail, with the early length errors of
the source. -/
def parse_nft_data (cell_data : List Nat) : Except Error NftData :=
  let cell_data_len := cell_data.length
  if cell_data_len < INSTANCE_ID_LEN then .error .InvalidInstanceIdLength
  else
    let instance_id := cell_data.take INSTANCE_ID_LEN
    if cell_data_len > INSTANCE_ID_LEN ∧ cell_data_len < INSTANCE_ID_LEN + QUANTITY_LEN then
      .error .InvalidQuantityLength
    else
      let quantity :=
        if cell_data_len > INSTANCE_ID_LEN then
          some (leBytesToNat ((cell_data.drop INSTANCE_ID_LEN).take QUANTITY_LEN))
        else none
      if cell_data_len > INSTANCE_ID_LEN + QUANTITY_LEN ∧
          cell_data_len < INSTANCE_ID_LEN + QUANTITY_LEN + TOKEN_LOGIC_LEN then
        .error .InvalidTokenLogicLength
      else
        let token_logic :=
          if cell_data_len > INSTANCE_ID_LEN + QUANTITY_LEN then
            some ((cell_data.drop (INSTANCE_ID_LEN + QUANTITY_LEN)).take TOKEN_LOGIC_LEN)
          else none
        let custom :=
          if cell_data_len > INSTANCE_ID_LEN + QUANTITY_LEN + TOKEN_LOGIC_LEN then
            some (cell_data.drop (INSTANCE_ID_LEN + QUANTITY_LEN + TOKEN_LOGIC_LEN))
          else none
        .ok ⟨instance_id, quantity, token_logic, custom⟩

/-- Embeds `validate_nft_data` from main.rs. -/
def validate_nft_data (nft_data : NftData) : Except Error Unit :=
  if nft_data.instance_id.length ≠ INSTANCE_ID_LEN then .error .InvalidInstanceIdLength
  else if nft_data.token_logic.isSome ∧
      (nft_data.quantity.isNone ∨ (nft_data.token_logic.getD []).length ≠ TOKEN_LOGIC_LEN) then
    .error .InvalidStructure
  else if nft_data.custom.isSome ∧ (nft_data.quantity.isNone ∨ nft_data.token_logic.isNone) then
    .error .InvalidStructure
  else .ok ()

/-- Modelled from the spec: `serialize` is the exact inverse concatenation
of `parse` (instance id, then the optional little-endian 16-byte quantity,
then the optional 32-byte logic hash, then the optional custom tail).  The
source repository ships no serializer under src/; this definition follows
section 4.1 of the specification. -/
def serialize (r : NftData) : List Nat :=
  r.instance_id ++
    (match r.quantity with | some q => natToLeBytes 16 q | none => []) ++
    (match r.token_logic with | some t => t | none => []) ++
    (match r.custom with | some c => c | none => [])

/-! ## Ordered sets of byte strings (alloc BTreeSet over Vec of u8) -/

/-- Lexicographic strict order on byte strings (the Ord of Vec of u8). -/
def bytesLt : List Nat → List Nat → Bool
  | [], [] => false
  | [], _ :: _ => true
  | _ :: _, [] => false
  | a :: as_, b :: bs => if a < b then true else if b < a then false else bytesLt as_ bs

/-- Insertion into a sorted deduplicated list, modelling BTreeSet insert. -/
def insertSorted (x : List Nat) : List (List Nat) → List (List Nat)
  | [] => [x]
  | y :: ys => if bytesLt x y then x :: y :: ys else if x = y then y :: ys else y :: insertSorted x ys

/-! ## Collection helpers from main.rs -/

/-- Embeds `check_owner_mode`: the first 32 bytes of the script args equal
the lock hash of at least one transaction input. -/
def check_owner_mode (args : List Nat) (input_lock_hashes : List (List Nat)) : Bool :=
  input_lock_hashes.any (fun lock_hash => args.take 32 = lock_hash)

/-- Embeds `collect_nft_indexes`: indexes of the cells (here: of the
enumerated type-script hashes) matching the given script hash. -/
def collect_nft_indexes (script_hash : List Nat) (type_hashes : List (Option (List Nat))) : List Nat :=
  type_hashes.enum.filterMap (fun p => if p.2 = some script_hash then some p.1 else none)

/-- Embeds `collect_unique_instance_ids` (BTreeSet of the 32-byte ids). -/
def collect_unique_instance_ids (nft_datas : List NftData) : List (List Nat) :=
  nft_datas.foldl (fun instance_ids nft_data =>
    insertSorted (nft_data.instance_id.take TOKEN_LOGIC_LEN) instance_ids) []

/-- Embeds `collect_nft_data`: parse then validate every cell data blob of
the source, in order, propagating the first error. -/
def collect_nft_data : List (List Nat) → Except Error (List NftData)
  | [] => .ok []
  | x :: xs => do
    let nft_data ← parse_nft_data x
    let _ ← validate_nft_data nft_data
    let rest ← collect_nft_data xs
    .ok (nft_data :: rest)

/-- Checked 128-bit addition.  Modelled from the spec: quantity arithmetic
uses a 128-bit unsigned accumulator with checked summation, treating
overflow as a hard validation failure rather than wrapping or saturating
(the release profile enabling overflow checks is not part of src/). -/
def checkedAdd128 (a b : Nat) : Option Nat :=
  if a + b < U128_MOD then some (a + b) else none

/-- One iteration of the `collect_nft_quantity` loop body. -/
def collect_nft_quantity_step (instance_id : List Nat) (token_logic_exists : Bool)
    (tl : List Nat) (acc : Option Nat) (nft_data : NftData) : Option Nat :=
  match acc with
  | none => none
  | some quantity =>
    let r := NftDataResolved.fromData nft_data
    if r.instance_id = instance_id then
      if token_logic_exists = false ∨ r.token_logic = tl then
        checkedAdd128 quantity r.quantity
      else some quantity
    else some quantity

/-- Embeds `collect_nft_quantity`: sum of resolved quantities of the
records matching the given instance id, and the given token logic value
only if one is given.  `none` is the overflow failure of `checkedAdd128`. -/
def collect_nft_quantity (instance_id : List Nat) (token_logic : Option (List Nat))
    (nft_datas : List NftData) : Option Nat :=
  let token_logic_exists := token_logic.isSome
  let tl := token_logic.getD []
  nft_datas.foldl (collect_nft_quantity_step instance_id token_logic_exists tl) (some 0)

/-- Embeds `collect_nft_quantities`: the group-input and group-output sums
for the record, considering the resolved token logic iff requested. -/
def collect_nft_quantities (nft_data : NftData)
    (group_input_nft_data group_output_nft_data : List NftData)
    (consider_token_logic : Bool) : Option (Nat × Nat) :=
  let r := NftDataResolved.fromData nft_data
  let instance_id := r.instance_id
  let token_logic := if consider_token_logic then some r.token_logic else none
  match collect_nft_quantity instance_id token_logic group_input_nft_data,
        collect_nft_quantity instance_id token_logic group_output_nft_data with
  | some group_input_quantity, some group_output_quantity =>
    some (group_input_quantity, group_output_quantity)
  | _, _ => none

/-- Embeds `count_nft_data_modifications`: records of the group whose
resolved instance id and token logic match the record but whose resolved
custom field differs. -/
def count_nft_data_modifications (nft_data : NftData) (group_nft_data : List NftData) : Nat :=
  let output_nft_data := NftDataResolved.fromData nft_data
  group_nft_data.foldl (fun modifications input_nft_data =>
    let input_nft_data := NftDataResolved.fromData input_nft_data
    if output_nft_data.instance_id = input_nft_data.instance_id ∧
        output_nft_data.token_logic = input_nft_data.token_logic ∧
        output_nft_data.custom ≠ input_nft_data.custom then
      modifications + 1
    else modifications) 0

/-! ## Plugin dispatcher (dynamic loading of token logic) -/

/-- A loaded token-logic library: `token_logic` is the status the entry
point returns when invoked, or `none` when the symbol is missing. -/
structure PluginLib where
  token_logic : Option Int

/-- The cell-dep environment for dynamic loading by code hash. -/
structure PluginEnv where
  load : List Nat → Option PluginLib

/-- Observable dispatcher events: classification of the group output at an
index, resolution (context.load) of a code hash, and invocation of its
token_logic entry point. -/
inductive Event where
  | classify (i : Nat)
  | resolve (h : List Nat)
  | invoke (h : List Nat)
deriving DecidableEq, Repr

/-- Result of a token-logic call: `panicConversion` is the expect panic of
the slice conversion, `panicStatus` the panic raised on a non-zero entry
point status. -/
inductive TLRes where
  | ok
  | err (e : Error)
  | panicConversion
  | panicStatus (code : Int)
deriving DecidableEq, Repr

/-- Embeds `execute_token_logic`: resolve the code hash, require the
token_logic symbol, invoke it, and panic on a non-zero return code. -/
def execute_token_logic (plug : PluginEnv) (token_logic_code_hash : List Nat) :
    TLRes × List Event :=
  if token_logic_code_hash.length ≠ TOKEN_LOGIC_LEN then (.panicConversion, [])
  else
    match plug.load token_logic_code_hash with
    | none => (.err .MissingTokenLogicCellDep, [.resolve token_logic_code_hash])
    | some lib =>
      match lib.token_logic with
      | none => (.err .MissingTokenLogicFunction, [.resolve token_logic_code_hash])
      | some token_logic_return_code =>
        (if token_logic_return_code ≠ 0 then .panicStatus token_logic_return_code else .ok,
         [.resolve token_logic_code_hash, .invoke token_logic_code_hash])

/-- Embeds `validate_token_logic`: skip the all-zero hash, otherwise
resolve the code hash and require the token_logic symbol, without
invoking it. -/
def validate_token_logic (plug : PluginEnv) (token_logic_code_hash : List Nat) :
    TLRes × List Event :=
  if token_logic_code_hash.length ≠ TOKEN_LOGIC_LEN then (.panicConversion, [])
  else if token_logic_code_hash = CODE_HASH_NULL then (.ok, [])
  else
    match plug.load token_logic_code_hash with
    | none => (.err .MissingTokenLogicCellDep, [.resolve token_logic_code_hash])
    | some lib =>
      match lib.token_logic with
      | none => (.err .MissingTokenLogicFunction, [.resolve token_logic_code_hash])
      | some _ => (.ok, [.resolve token_logic_code_hash])

/-! ## Identity derivation and the main validation -/

/-- An outpoint: 32-byte transaction hash and the raw 4 little-endian
bytes of its 32-bit index. -/
structure OutPoint where
  tx_hash : List Nat
  index : List Nat
deriving DecidableEq, Repr

/-- Embeds `calculate_instance_id`: blake2b-256 of the seed outpoint
transaction hash, the seed outpoint index bytes, and the little-endian
bytes of the output index as u32. -/
def calculate_instance_id (seed_cell_outpoint : OutPoint) (output_index : Nat) : List Nat :=
  ckbBlake2b256 (seed_cell_outpoint.tx_hash ++ seed_cell_outpoint.index ++ u32LeBytes output_index)

/-- Result of the whole validation, with the panic outcomes kept separate
from the error taxonomy (a Rust panic does not return through main). -/
inductive RRes (α : Type) where
  | ok (a : α)
  | err (e : Error)
  | panicOverflow
  | panicConversion
  | panicStatus (code : Int)
deriving DecidableEq, Repr

def TLRes.toRRes {α : Type} (a : α) : TLRes → RRes α
  | .ok => .ok a
  | .err e => .err e
  | .panicConversion => .panicConversion
  | .panicStatus c => .panicStatus c

/-- Embeds the classification loop of `main` over the enumerated group
output records, threading the validate-only and execute hash sets and
recording the dispatcher events in order. -/
def classifyOutputs (plug : PluginEnv) (owner_mode : Bool)
    (group_input_nft_data group_output_nft_data : List NftData)
    (group_input_instance_ids : List (List Nat)) (output_nft_indexes : List Nat)
    (seed_cell_outpoint : OutPoint) :
    List (Nat × NftData) → List (List Nat) → List (List Nat) →
    RRes (List (List Nat) × List (List Nat)) × List Event
  | [], vset, eset => (.ok (vset, eset), [])
  | (index, output_nft_data) :: rest, vset, eset =>
    if output_nft_data.instance_id ∈ group_input_instance_ids then
      match collect_nft_quantities output_nft_data group_input_nft_data group_output_nft_data
          owner_mode with
      | none => (.panicOverflow, [.classify index])
      | some (input_nft_quantity, output_nft_quantity) =>
        if output_nft_quantity > input_nft_quantity then
          (.err .InvalidQuantity, [.classify index])
        else
          let sets :=
            match output_nft_data.token_logic with
            | some token_logic_code_hash =>
              if token_logic_code_hash ≠ CODE_HASH_NULL then
                if owner_mode = true ∨
                    count_nft_data_modifications output_nft_data group_input_nft_data = 0 then
                  (insertSorted token_logic_code_hash vset, eset)
                else
                  (vset, insertSorted token_logic_code_hash eset)
              else (vset, eset)
            | none => (vset, eset)
          let next := classifyOutputs plug owner_mode group_input_nft_data group_output_nft_data
            group_input_instance_ids output_nft_indexes seed_cell_outpoint rest sets.1 sets.2
          (next.1, .classify index :: next.2)
    else
      if owner_mode = false then (.err .UnauthorizedOperation, [.classify index])
      else
        let instance_id := calculate_instance_id seed_cell_outpoint
          (output_nft_indexes.getD index 0)
        if output_nft_data.instance_id ≠ instance_id then
          (.err .InvalidInstanceId, [.classify index])
        else
          match output_nft_data.token_logic with
          | some h =>
            let v := validate_token_logic plug h
            match v.1 with
            | .ok =>
              let next := classifyOutputs plug owner_mode group_input_nft_data
                group_output_nft_data group_input_instance_ids output_nft_indexes
                seed_cell_outpoint rest vset eset
              (next.1, .classify index :: v.2 ++ next.2)
            | bad => (bad.toRRes (vset, eset), .classify index :: v.2)
          | none =>
            let next := classifyOutputs plug owner_mode group_input_nft_data
              group_output_nft_data group_input_instance_ids output_nft_indexes
              seed_cell_outpoint rest vset eset
            (next.1, .classify index :: next.2)

/-- Embeds the loop over `token_logic_code_hashes_validate` of main. -/
def runValidateSet (plug : PluginEnv) : List (List Nat) → TLRes × List Event
  | [] => (.ok, [])
  | h :: hs =>
    let v := validate_token_logic plug h
    match v.1 with
    | .ok =>
      let next := runValidateSet plug hs
      (next.1, v.2 ++ next.2)
    | bad => (bad, v.2)

/-- Embeds the loop over `token_logic_code_hashes_execute` of main. -/
def runExecuteSet (plug : PluginEnv) : List (List Nat) → TLRes × List Event
  | [] => (.ok, [])
  | h :: hs =>
    let v := execute_token_logic plug h
    match v.1 with
    | .ok =>
      let next := runExecuteSet plug hs
      (next.1, v.2 ++ next.2)
    | bad => (bad, v.2)

/-- The ledger-supplied context of one invocation of the validator. -/
structure ChainEnv where
  args : List Nat
  input_lock_hashes : List (List Nat)
  group_input_data : List (List Nat)
  group_output_data : List (List Nat)
  script_hash : List Nat
  output_type_hashes : List (Option (List Nat))
  first_input_outpoint : Option OutPoint
  plugins : PluginEnv

/-- Embeds `main` from main.rs: argument length check, owner mode, group
data collection, the output count check, seed outpoint, the
classification loop, then the validate-only set followed by the execute
set.  The second component is the ordered dispatcher event trace. -/
def validatorMain (env : ChainEnv) : RRes Unit × List Event :=
  if env.args.length < ARGS_LEN then (.err .InvalidArgsLen, [])
  else
    let owner_mode := check_owner_mode env.args env.input_lock_hashes
    match collect_nft_data env.group_input_data with
    | .error e => (.err e, [])
    | .ok group_input_nft_data =>
      match collect_nft_data env.group_output_data with
      | .error e => (.err e, [])
      | .ok group_output_nft_data =>
        let group_input_instance_ids := collect_unique_instance_ids group_input_nft_data
        let output_nft_indexes := collect_nft_indexes env.script_hash env.output_type_hashes
        if group_output_nft_data.length ≠ output_nft_indexes.length then
          (.err .UnexpectedCellMismatch, [])
        else
          match env.first_input_outpoint with
          | none => (.err .IndexOutOfBound, [])
          | some seed_cell_outpoint =>
            match classifyOutputs env.plugins owner_mode group_input_nft_data
                group_output_nft_data group_input_instance_ids output_nft_indexes
                seed_cell_outpoint group_output_nft_data.enum [] [] with
            | (.ok sets, tr) =>
              let v := runValidateSet env.plugins sets.1
              match v.1 with
              | .ok =>
                let ex := runExecuteSet env.plugins sets.2
                (ex.1.toRRes (), tr ++ v.2 ++ ex.2)
              | bad => (bad.toRRes (), tr ++ v.2)
            | (.err e, tr) => (.err e, tr)
            | (.panicOverflow, tr) => (.panicOverflow, tr)
            | (.panicConversion, tr) => (.panicConversion, tr)
            | (.panicStatus c, tr) => (.panicStatus c, tr)

/-- Embeds `program_entry`: a normal return maps Ok to exit status 0 and
an error to its numeric discriminant; a panic does not return through
program_entry at all (the process is aborted by the external panic
handler), modelled as `none`. -/
def program_entry (env : ChainEnv) : Option Int :=
  match (validatorMain env).1 with
  | .ok _ => some 0
  | .err err => some (errorCode err)
  | .panicOverflow => none
  | .panicConversion => none
  | .panicStatus _ => none

/-! ## Mathematical partition sums and characterization lemmas -/

/-- Sum of resolved quantities of the records passing the
`collect_nft_quantity` filter, as a plain list sum. -/
def qsum (instance_id : List Nat) (token_logic_exists : Bool) (tl : List Nat)
    (nft_datas : List NftData) : Nat :=
  (nft_datas.map (fun nft_data =>
    let r := NftDataResolved.fromData nft_data
    if r.instance_id = instance_id ∧ (token_logic_exists = false ∨ r.token_logic = tl) then
      r.quantity
    else 0)).sum

/-- Sum of the resolved quantities of the records sharing an instance id. -/
def sumByInstanceId (instance_id : List Nat) (nft_datas : List NftData) : Nat :=
  (nft_datas.map (fun nft_data =>
    let r := NftDataResolved.fromData nft_data
    if r.instance_id = instance_id then r.quantity else 0)).sum

/-- Sum of the resolved quantities of the records sharing both an instance
id and a resolved token logic hash. -/
def sumByInstanceIdAndLogic (instance_id token_logic : List Nat) (nft_datas : List NftData) : Nat :=
  (nft_datas.map (fun nft_data =>
    let r := NftDataResolved.fromData nft_data
    if r.instance_id = instance_id ∧ r.token_logic = token_logic then r.quantity else 0)).sum

lemma foldl_step_none (instance_id : List Nat) (tle : Bool) (tl : List Nat)
    (l : List NftData) :
    l.foldl (collect_nft_quantity_step instance_id tle tl) none = none := by
  induction l with
  | nil => rfl
  | cons d ds ih => simpa [collect_nft_quantity_step] using ih

lemma foldl_step_some (instance_id : List Nat) (tle : Bool) (tl : List Nat) :
    ∀ (l : List NftData) (q0 : Nat), q0 < U128_MOD →
    l.foldl (collect_nft_quantity_step instance_id tle tl) (some q0) =
      if q0 + qsum instance_id tle tl l < U128_MOD then
        some (q0 + qsum instance_id tle tl l)
      else none := by
  intro l
  induction l with
  | nil =>
    intro q0 hq0
    simp [qsum, hq0]
  | cons d ds ih =>
    intro q0 hq0
    have hstep : collect_nft_quantity_step instance_id tle tl (some q0) d =
        if (NftDataResolved.fromData d).instance_id = instance_id ∧
            (tle = false ∨ (NftDataResolved.fromData d).token_logic = tl) then
          checkedAdd128 q0 (NftDataResolved.fromData d).quantity
        else some q0 := by
      simp only [collect_nft_quantity_step]
      split_ifs with h1 h2 h3 h4 <;> tauto
    have hqsum : qsum instance_id tle tl (d :: ds) =
        (if (NftDataResolved.fromData d).instance_id = instance_id ∧
            (tle = false ∨ (NftDataResolved.fromData d).token_logic = tl) then
          (NftDataResolved.fromData d).quantity else 0) + qsum instance_id tle tl ds := by
      simp [qsum]
    by_cases hc : (NftDataResolved.fromData d).instance_id = instance_id ∧
        (tle = false ∨ (NftDataResolved.fromData d).token_logic = tl)
    · rw [List.foldl_cons, hstep, if_pos hc, hqsum, if_pos hc]
      unfold checkedAdd128
      by_cases hov : q0 + (NftDataResolved.fromData d).quantity < U128_MOD
      · rw [if_pos hov, ih _ hov]
        have : q0 + (NftDataResolved.fromData d).quantity + qsum instance_id tle tl ds =
            q0 + ((NftDataResolved.fromData d).quantity + qsum instance_id tle tl ds) := by omega
        rw [this]
      · rw [if_neg hov, foldl_step_none]
        have : ¬ q0 + ((NftDataResolved.fromData d).quantity + qsum instance_id tle tl ds) <
            U128_MOD := by omega
        rw [if_neg this]
    · rw [List.foldl_cons, hstep, if_neg hc, hqsum, if_neg hc, ih _ hq0]
      simp

/-- Closed form of `collect_nft_quantity`: the checked sum of the filter. -/
lemma collect_nft_quantity_eq (instance_id : List Nat) (token_logic : Option (List Nat))
    (nft_datas : List NftData) :
    collect_nft_quantity instance_id token_logic nft_datas =
      if qsum instance_id token_logic.isSome (token_logic.getD []) nft_datas < U128_MOD then
        some (qsum instance_id token_logic.isSome (token_logic.getD []) nft_datas)
      else none := by
  unfold collect_nft_quantity
  rw [foldl_step_some instance_id token_logic.isSome (token_logic.getD []) nft_datas 0
    (by unfold U128_MOD; omega)]
  simp

lemma qsum_false_eq (instance_id : List Nat) (tl : List Nat) (nft_datas : List NftData) :
    qsum instance_id false tl nft_datas = sumByInstanceId instance_id nft_datas := by
  unfold qsum sumByInstanceId
  simp

lemma qsum_true_eq (instance_id : List Nat) (tl : List Nat) (nft_datas : List NftData) :
    qsum instance_id true tl nft_datas = sumByInstanceIdAndLogic instance_id tl nft_datas := by
  unfold qsum sumByInstanceIdAndLogic
  simp

/-! ## Codec lemmas -/

lemma natToLeBytes_length (n : Nat) : ∀ q : Nat, (natToLeBytes n q).length = n := by
  induction n with
  | zero => intro q; rfl
  | succ m ih => intro q; simp [natToLeBytes, ih]

lemma leBytesToNat_natToLeBytes (n : Nat) :
    ∀ q : Nat, q < 256 ^ n → leBytesToNat (natToLeBytes n q) = q := by
  induction n with
  | zero =>
    intro q hq
    interval_cases q
    rfl
  | succ m ih =>
    intro q hq
    have hdiv : q / 256 < 256 ^ m := by
      have h2 : q < 256 ^ m * 256 := by
        calc q < 256 ^ (m + 1) := hq
        _ = 256 ^ m * 256 := by ring
      omega
    have := ih (q / 256) hdiv
    simp only [natToLeBytes, leBytesToNat, List.foldr_cons] at *
    omega

/-- Closed branch form of `parse_nft_data`. -/
lemma parse_nft_data_eq (b : List Nat) :
    parse_nft_data b =
      if b.length < 32 then .error .InvalidInstanceIdLength
      else if 32 < b.length ∧ b.length < 48 then .error .InvalidQuantityLength
      else if 48 < b.length ∧ b.length < 80 then .error .InvalidTokenLogicLength
      else .ok ⟨b.take 32,
        if 32 < b.length then some (leBytesToNat ((b.drop 32).take 16)) else none,
        if 48 < b.length then some ((b.drop 48).take 32) else none,
        if 80 < b.length then some (b.drop 80) else none⟩ := by
  rfl

/-- C7: a payload shorter than 32 bytes fails parse with
InvalidInstanceIdLength; a length strictly between 32 and 48 fails with
InvalidQuantityLength; strictly between 48 and 80 fails with
InvalidTokenLogicLength; otherwise parse succeeds with bytes 0..32 as the
instance id, bytes 32..48 (when present) as the little-endian quantity,
bytes 48..80 (when present) as the logic hash and the bytes past 80 as
the custom tail, verbatim. -/
theorem claim_C7 (b : List Nat) :
    (b.length < 32 → parse_nft_data b = .error .InvalidInstanceIdLength) ∧
    (32 < b.length → b.length < 48 → parse_nft_data b = .error .InvalidQuantityLength) ∧
    (48 < b.length → b.length < 80 → parse_nft_data b = .error .InvalidTokenLogicLength) ∧
    (¬ b.length < 32 → ¬ (32 < b.length ∧ b.length < 48) → ¬ (48 < b.length ∧ b.length < 80) →
      parse_nft_data b = .ok ⟨b.take 32,
        if 32 < b.length then some (leBytesToNat ((b.drop 32).take 16)) else none,
        if 48 < b.length then some ((b.drop 48).take 32) else none,
        if 80 < b.length then some (b.drop 80) else none⟩) := by
  rw [parse_nft_data_eq]
  refine ⟨fun h1 => ?_, fun h1 h2 => ?_, fun h1 h2 => ?_, fun h1 h2 h3 => ?_⟩
  · rw [if_pos h1]
  · rw [if_neg (by omega), if_pos ⟨h1, h2⟩]
  · rw [if_neg (by omega), if_neg (by omega), if_pos ⟨h1, h2⟩]
  · rw [if_neg h1, if_neg h2, if_neg h3]

/-- Witness for C7 at inputs of lengths 20, 40, 60 and 80. -/
theorem claim_C7_witness :
    parse_nft_data (List.replicate 20 7) = .error .InvalidInstanceIdLength ∧
    parse_nft_data (List.replicate 40 7) = .error .InvalidQuantityLength ∧
    parse_nft_data (List.replicate 60 7) = .error .InvalidTokenLogicLength ∧
    parse_nft_data (List.replicate 80 7) = .ok ⟨(List.replicate 80 7).take 32,
      some (leBytesToNat (((List.replicate 80 7).drop 32).take 16)),
      some (((List.replicate 80 7).drop 48).take 32), none⟩ :=
  ⟨(claim_C7 (List.replicate 20 7)).1 (by decide),
   (claim_C7 (List.replicate 40 7)).2.1 (by decide) (by decide),
   (claim_C7 (List.replicate 60 7)).2.2.1 (by decide) (by decide),
   by
    have h := (claim_C7 (List.replicate 80 7)).2.2.2 (by decide) (by decide) (by decide)
    simpa using h⟩

/-- C10: every record produced by a successful parse passes
validate_nft_data, so the structural error branches of validate are
unreachable on parser output. -/
theorem claim_C10 (b : List Nat) (r : NftData) (h : parse_nft_data b = .ok r) :
    validate_nft_data r = .ok () := by
  rw [parse_nft_data_eq] at h
  split_ifs at h
  all_goals first
    | exact Except.noConfusion h
    | (injection h with h
       subst h
       simp only [validate_nft_data, INSTANCE_ID_LEN, TOKEN_LOGIC_LEN, Option.isSome_some,
         Option.isSome_none, Option.isNone_some, Option.isNone_none, Option.getD_some,
         List.length_take, List.length_drop]
       split_ifs <;> first | rfl | (exfalso; simp_all <;> omega))

/-- Witness for C10 at a concrete 81-byte payload. -/
theorem claim_C10_witness :
    validate_nft_data ⟨List.replicate 32 2, some 7, some (List.replicate 32 3), some [9]⟩ =
      .ok () :=
  claim_C10 (List.replicate 32 2 ++ natToLeBytes 16 7 ++ List.replicate 32 3 ++ [9])
    ⟨List.replicate 32 2, some 7, some (List.replicate 32 3), some [9]⟩ (by decide)

/-- A record with an empty custom field, accepted by validate. -/
def emptyCustomRecord : NftData :=
  ⟨List.replicate 32 1, some 5, some (List.replicate 32 2), some []⟩

/-- Counterexample to C9: the record with custom present but empty is
accepted by validate, yet parse of its serialization returns the record
with custom absent, so the round-trip is not the identity on all
validate-accepted records. -/
theorem claim_C9_counterexample :
    validate_nft_data emptyCustomRecord = .ok () ∧
    parse_nft_data (serialize emptyCustomRecord) ≠ .ok emptyCustomRecord := by
  decide

/-- C9 amended: parse of serialize is the identity on every record
accepted by validate whose quantity fits in 128 bits and whose custom
field is not present-but-empty (parse can never produce an empty custom
field, so exactly those records round-trip). -/
theorem claim_C9_amended (r : NftData) (hv : validate_nft_data r = .ok ())
    (hq : ∀ q, r.quantity = some q → q < U128_MOD)
    (hc : r.custom ≠ some []) :
    parse_nft_data (serialize r) = .ok r := by
  obtain ⟨id, qty, tl, cu⟩ := r
  unfold validate_nft_data at hv
  split_ifs at hv with hA hB hC
  simp only [not_not, INSTANCE_ID_LEN] at hA
  simp only [TOKEN_LOGIC_LEN] at hB
  rcases qty with _ | q
  · rcases tl with _ | t
    · rcases cu with _ | c
      · rw [parse_nft_data_eq]
        have htake : id.take 32 = id := List.take_of_length_le (by omega)
        simp [serialize, hA, htake]
      · exact absurd (by simp) hC
    · exact absurd (by simp) hB
  · have hqlt : q < U128_MOD := hq q rfl
    have hqpow : q < 256 ^ 16 := by
      have : U128_MOD = 256 ^ 16 := by unfold U128_MOD; norm_num
      omega
    have hlq : (natToLeBytes 16 q).length = 16 := natToLeBytes_length 16 q
    rcases tl with _ | t
    · rcases cu with _ | c
      · rw [parse_nft_data_eq]
        have hlen : (id ++ natToLeBytes 16 q).length = 48 := by
          simp [hA, hlq]
        have htake : (id ++ natToLeBytes 16 q).take 32 = id := List.take_left' hA
        have hdrop : (id ++ natToLeBytes 16 q).drop 32 = natToLeBytes 16 q :=
          List.drop_left' hA
        simp only [serialize]
        simp only [List.append_nil]
        rw [if_neg (by omega), if_neg (by omega), if_neg (by omega)]
        simp only [hlen, htake, hdrop, Except.ok.injEq, NftData.mk.injEq]
        refine ⟨trivial, ?_, by norm_num, by norm_num⟩
        rw [if_pos (by omega)]
        rw [List.take_of_length_le (by omega), leBytesToNat_natToLeBytes 16 q hqpow]
      · exact absurd (by simp) hC
    · have hB2 : t.length = 32 := by
        by_contra hne
        exact hB (by simp [hne])
      rcases cu with _ | c
      · rw [parse_nft_data_eq]
        have hlen : (id ++ (natToLeBytes 16 q ++ t)).length = 80 := by
          simp [hA, hlq, hB2]
        have htake : (id ++ (natToLeBytes 16 q ++ t)).take 32 = id := List.take_left' hA
        have hdrop32 : (id ++ (natToLeBytes 16 q ++ t)).drop 32 = natToLeBytes 16 q ++ t :=
          List.drop_left' hA
        have hdrop48 : ((id ++ natToLeBytes 16 q) ++ t).drop 48 = t :=
          List.drop_left' (by simp [hA, hlq])
        simp only [serialize, List.append_nil, List.append_assoc]
        rw [if_neg (by omega), if_neg (by omega), if_neg (by omega)]
        simp only [hlen, htake, hdrop32, Except.ok.injEq, NftData.mk.injEq]
        refine ⟨trivial, ?_, ?_, by norm_num⟩
        · rw [if_pos (by omega)]
          rw [List.take_left' hlq, leBytesToNat_natToLeBytes 16 q hqpow]
        · rw [if_pos (by omega)]
          rw [← List.append_assoc, hdrop48, List.take_of_length_le (by omega)]
      · have hcne : c ≠ [] := by
          intro h
          exact hc (by simp [h])
        have hcpos : 0 < c.length := List.length_pos.mpr hcne
        rw [parse_nft_data_eq]
        have hlen : (id ++ (natToLeBytes 16 q ++ (t ++ c))).length = 80 + c.length := by
          simp [hA, hlq, hB2]
          omega
        have htake : (id ++ (natToLeBytes 16 q ++ (t ++ c))).take 32 = id := List.take_left' hA
        have hdrop32 : (id ++ (natToLeBytes 16 q ++ (t ++ c))).drop 32 =
            natToLeBytes 16 q ++ (t ++ c) := List.drop_left' hA
        have hdrop48 : ((id ++ natToLeBytes 16 q) ++ (t ++ c)).drop 48 = t ++ c :=
          List.drop_left' (by simp [hA, hlq])
        have hdrop80 : (((id ++ natToLeBytes 16 q) ++ t) ++ c).drop 80 = c :=
          List.drop_left' (by simp [hA, hlq, hB2])
        simp only [serialize, List.append_assoc]
        rw [if_neg (by omega), if_neg (by omega), if_neg (by omega)]
        simp only [hlen, htake, hdrop32, Except.ok.injEq, NftData.mk.injEq]
        refine ⟨trivial, ?_, ?_, ?_⟩
        · rw [if_pos (by omega)]
          rw [List.take_left' hlq, leBytesToNat_natToLeBytes 16 q hqpow]
        · rw [if_pos (by omega)]
          rw [← List.append_assoc, hdrop48, List.take_left' hB2]
        · rw [if_pos (by omega)]
          rw [← List.append_assoc, ← List.append_assoc, hdrop80]

/-- Witness for the amended C9 at a concrete record with all fields. -/
theorem claim_C9_amended_witness :
    parse_nft_data (serialize ⟨List.replicate 32 1, some 5, some (List.replicate 32 2), some [3]⟩)
      = .ok ⟨List.replicate 32 1, some 5, some (List.replicate 32 2), some [3]⟩ :=
  claim_C9_amended ⟨List.replicate 32 1, some 5, some (List.replicate 32 2), some [3]⟩
    (by decide) (by intro q hq; injection hq with hq; subst hq; decide) (by decide)

/-- C8: quantity summation is a checked 128-bit accumulation — whenever
the true sum of the filtered resolved quantities reaches 2 ^ 128 the
collection is a hard failure (no wrapped or saturated value is ever
returned), and below the bound it returns exactly the true sum. -/
theorem claim_C8 (instance_id : List Nat) (token_logic : Option (List Nat))
    (nft_datas : List NftData) :
    (U128_MOD ≤ qsum instance_id token_logic.isSome (token_logic.getD []) nft_datas →
      collect_nft_quantity instance_id token_logic nft_datas = none) ∧
    (qsum instance_id token_logic.isSome (token_logic.getD []) nft_datas < U128_MOD →
      collect_nft_quantity instance_id token_logic nft_datas =
        some (qsum instance_id token_logic.isSome (token_logic.getD []) nft_datas)) := by
  rw [collect_nft_quantity_eq]
  constructor
  · intro h
    rw [if_neg (by omega)]
  · intro h
    rw [if_pos h]

/-- Witness for C8: two records of quantity 2 ^ 127 overflow and fail. -/
theorem claim_C8_witness :
    collect_nft_quantity (List.replicate 32 1) none
      [⟨List.replicate 32 1, some (2 ^ 127), none, none⟩,
       ⟨List.replicate 32 1, some (2 ^ 127), none, none⟩] = none :=
  (claim_C8 (List.replicate 32 1) none
    [⟨List.replicate 32 1, some (2 ^ 127), none, none⟩,
     ⟨List.replicate 32 1, some (2 ^ 127), none, none⟩]).1 (by decide)

/-- Record data of the C1 counterexample: the group input holds quantity 5
of the instance under logic hash B, the group output claims quantity 4 of
the same instance under logic hash A. -/
def cexOutRecord : NftData := ⟨List.replicate 32 1, some 4, some (10 :: List.replicate 31 0), none⟩

def cexInputList : List NftData := [⟨List.replicate 32 1, some 5, some (11 :: List.replicate 31 0), none⟩]

def cexOutputList : List NftData := [cexOutRecord]

/-- Counterexample to C1: with owner_mode = true the code sums by the
pair (instance id, logic hash) — the input sum is 0 because the input
carries a different logic hash — not by instance id alone, whose sums
would be 5 and 4. -/
theorem claim_C1_counterexample :
    collect_nft_quantities cexOutRecord cexInputList cexOutputList true = some (0, 4) ∧
    sumByInstanceId (NftDataResolved.fromData cexOutRecord).instance_id cexInputList = 5 ∧
    sumByInstanceId (NftDataResolved.fromData cexOutRecord).instance_id cexOutputList = 4 := by
  decide

/-- C1 amended: the conservation sums are partitioned by the pair
(instance id, resolved logic hash) when owner_mode is true, and by the
instance id alone when owner_mode is false; below the 128-bit bound the
collected quantities are exactly the sums of the group-input and
group-output records sharing that partition key. -/
theorem claim_C1_amended (nft_data : NftData) (gin gout : List NftData) (owner_mode : Bool)
    (hin : (if owner_mode then
        sumByInstanceIdAndLogic (NftDataResolved.fromData nft_data).instance_id
          (NftDataResolved.fromData nft_data).token_logic gin
      else sumByInstanceId (NftDataResolved.fromData nft_data).instance_id gin) < U128_MOD)
    (hout : (if owner_mode then
        sumByInstanceIdAndLogic (NftDataResolved.fromData nft_data).instance_id
          (NftDataResolved.fromData nft_data).token_logic gout
      else sumByInstanceId (NftDataResolved.fromData nft_data).instance_id gout) < U128_MOD) :
    collect_nft_quantities nft_data gin gout owner_mode =
      some (if owner_mode then
          (sumByInstanceIdAndLogic (NftDataResolved.fromData nft_data).instance_id
            (NftDataResolved.fromData nft_data).token_logic gin,
           sumByInstanceIdAndLogic (NftDataResolved.fromData nft_data).instance_id
            (NftDataResolved.fromData nft_data).token_logic gout)
        else
          (sumByInstanceId (NftDataResolved.fromData nft_data).instance_id gin,
           sumByInstanceId (NftDataResolved.fromData nft_data).instance_id gout)) := by
  cases owner_mode with
  | false =>
    simp only [if_neg Bool.false_ne_true] at hin hout ⊢
    unfold collect_nft_quantities
    simp only [Bool.false_eq_true, if_false]
    rw [collect_nft_quantity_eq, collect_nft_quantity_eq]
    simp only [Option.isSome_none, Option.getD_none]
    rw [qsum_false_eq, qsum_false_eq, if_pos hin, if_pos hout]
  | true =>
    simp only [if_pos] at hin hout ⊢
    unfold collect_nft_quantities
    simp only [if_true]
    rw [collect_nft_quantity_eq, collect_nft_quantity_eq]
    simp only [Option.isSome_some, Option.getD_some]
    rw [qsum_true_eq, qsum_true_eq, if_pos hin, if_pos hout]

/-- Witness for the amended C1 at the counterexample data, both modes. -/
theorem claim_C1_amended_witness :
    collect_nft_quantities cexOutRecord cexInputList cexOutputList false = some (5, 4) :=
  Eq.trans
    (claim_C1_amended cexOutRecord cexInputList cexOutputList false (by decide) (by decide))
    (by decide)

/-- A cell-dep environment with no loadable libraries. -/
def noPlugins : PluginEnv := ⟨fun _ => none⟩

/-- The seed outpoint used by the concrete scenarios. -/
def seedOp : OutPoint := ⟨List.replicate 32 0, [0, 0, 0, 0]⟩

/-- C4: when a group-output record is classified as transfer/update and
its collected partition sums are (input, output), an output sum
exceeding the input sum rejects the whole validation with
InvalidQuantity at that record, and an output sum at most the input sum
passes the conservation check for that partition — classification
continues with the remaining records. -/
theorem claim_C4 (plug : PluginEnv) (owner_mode : Bool) (gin gout : List NftData)
    (gids : List (List Nat)) (oidx : List Nat) (seed : OutPoint)
    (index : Nat) (od : NftData) (rest : List (Nat × NftData))
    (vset eset : List (List Nat)) (iq oq : Nat)
    (hmem : od.instance_id ∈ gids)
    (hq : collect_nft_quantities od gin gout owner_mode = some (iq, oq)) :
    (iq < oq →
      classifyOutputs plug owner_mode gin gout gids oidx seed ((index, od) :: rest) vset eset
        = (.err .InvalidQuantity, [.classify index])) ∧
    (oq ≤ iq → ∃ sets : List (List Nat) × List (List Nat),
      classifyOutputs plug owner_mode gin gout gids oidx seed ((index, od) :: rest) vset eset
        = ((classifyOutputs plug owner_mode gin gout gids oidx seed rest sets.1 sets.2).1,
           .classify index ::
             (classifyOutputs plug owner_mode gin gout gids oidx seed rest sets.1 sets.2).2)) := by
  constructor
  · intro hlt
    simp only [classifyOutputs, if_pos hmem, hq]
    rw [if_pos hlt]
  · intro hle
    simp only [classifyOutputs, if_pos hmem, hq]
    rw [if_neg (by omega)]
    exact ⟨_, rfl⟩

/-- Witness for C4: one input of quantity 1, one output of quantity 2. -/
theorem claim_C4_witness :
    classifyOutputs noPlugins false [⟨List.replicate 32 1, some 1, none, none⟩]
      [⟨List.replicate 32 1, some 2, none, none⟩] [List.replicate 32 1] [0] seedOp
      [(0, ⟨List.replicate 32 1, some 2, none, none⟩)] [] []
      = (.err .InvalidQuantity, [.classify 0]) :=
  (claim_C4 noPlugins false [⟨List.replicate 32 1, some 1, none, none⟩]
    [⟨List.replicate 32 1, some 2, none, none⟩] [List.replicate 32 1] [0] seedOp
    0 ⟨List.replicate 32 1, some 2, none, none⟩ [] [] [] 1 2
    (by decide) (by decide)).1 (by decide)

/-- C5: a group-output record whose instance id is absent from the group
input instance ids is a generation; without owner mode its classification
rejects the validation with UnauthorizedOperation. -/
theorem claim_C5 (plug : PluginEnv) (owner_mode : Bool) (gin gout : List NftData)
    (gids : List (List Nat)) (oidx : List Nat) (seed : OutPoint)
    (index : Nat) (od : NftData) (rest : List (Nat × NftData))
    (vset eset : List (List Nat))
    (hmem : od.instance_id ∉ gids) (hmode : owner_mode = false) :
    classifyOutputs plug owner_mode gin gout gids oidx seed ((index, od) :: rest) vset eset
      = (.err .UnauthorizedOperation, [.classify index]) := by
  subst hmode
  simp only [classifyOutputs, if_neg hmem]
  rfl

/-- Witness for C5: a fresh output instance id with owner mode off. -/
theorem claim_C5_witness :
    classifyOutputs noPlugins false [] [⟨List.replicate 32 4, none, none, none⟩] [] [0] seedOp
      [(0, ⟨List.replicate 32 4, none, none, none⟩)] [] []
      = (.err .UnauthorizedOperation, [.classify 0]) :=
  claim_C5 noPlugins false [] [⟨List.replicate 32 4, none, none, none⟩] [] [0] seedOp
    0 ⟨List.replicate 32 4, none, none, none⟩ [] [] [] (by decide) rfl

/-- Script hash of the validator in the concrete scenarios. -/
def scriptHash3 : List Nat := List.replicate 32 3

/-- Environment refuting C2: the only matching output sits at raw
transaction-output index 1 (index 0 carries a foreign type script), and
the generated record stores the id derived from ordinal position 0. -/
def cexEnv2 : ChainEnv where
  args := List.replicate 32 9
  input_lock_hashes := [List.replicate 32 9]
  group_input_data := []
  group_output_data := [calculate_instance_id seedOp 0]
  script_hash := scriptHash3
  output_type_hashes := [none, some scriptHash3]
  first_input_outpoint := some seedOp
  plugins := noPlugins

set_option maxRecDepth 1000000 in
/-- Counterexample to C2: the single group-output record (ordinal
position 0 among matching outputs) stores exactly the id derived from
the seed outpoint and ordinal 0, yet validation fails with
InvalidInstanceId — the code derives the expected id from the raw
transaction-output index 1 of that record, not from its ordinal
position. -/
theorem claim_C2_counterexample :
    cexEnv2.group_output_data = [calculate_instance_id seedOp 0] ∧
    collect_nft_indexes cexEnv2.script_hash cexEnv2.output_type_hashes = [1] ∧
    check_owner_mode cexEnv2.args cexEnv2.input_lock_hashes = true ∧
    validatorMain cexEnv2 = (.err .InvalidInstanceId, [.classify 0]) := by
  decide

/-- C2 amended: on a generation record under owner mode the expected id
is derived from the seed outpoint and the record's raw transaction-output
index (the entry of the matching-output index list at the record's
ordinal), a mismatch failing with InvalidInstanceId, a match (with no
logic hash attached) continuing with the remaining records. -/
theorem claim_C2_amended (plug : PluginEnv) (owner_mode : Bool) (gin gout : List NftData)
    (gids : List (List Nat)) (oidx : List Nat) (seed : OutPoint)
    (index : Nat) (od : NftData) (rest : List (Nat × NftData))
    (vset eset : List (List Nat))
    (hmem : od.instance_id ∉ gids) (hmode : owner_mode = true) :
    (od.instance_id ≠ calculate_instance_id seed (oidx.getD index 0) →
      classifyOutputs plug owner_mode gin gout gids oidx seed ((index, od) :: rest) vset eset
        = (.err .InvalidInstanceId, [.classify index])) ∧
    (od.instance_id = calculate_instance_id seed (oidx.getD index 0) → od.token_logic = none →
      classifyOutputs plug owner_mode gin gout gids oidx seed ((index, od) :: rest) vset eset
        = ((classifyOutputs plug owner_mode gin gout gids oidx seed rest vset eset).1,
           .classify index ::
             (classifyOutputs plug owner_mode gin gout gids oidx seed rest vset eset).2)) := by
  subst hmode
  constructor
  · intro hne
    simp only [classifyOutputs, if_neg hmem]
    rw [if_neg (by simp), if_pos hne]
  · intro heq htl
    simp only [classifyOutputs, if_neg hmem, htl]
    rw [if_neg (by simp), if_neg (by simp [heq])]

set_option maxRecDepth 1000000 in
/-- Witness for the amended C2: a stored id differing from the raw-index
derivation is rejected with InvalidInstanceId. -/
theorem claim_C2_amended_witness :
    classifyOutputs noPlugins true [] [⟨List.replicate 32 7, none, none, none⟩] [] [1] seedOp
      [(0, ⟨List.replicate 32 7, none, none, none⟩)] [] []
      = (.err .InvalidInstanceId, [.classify 0]) :=
  (claim_C2_amended noPlugins true [] [⟨List.replicate 32 7, none, none, none⟩] [] [1] seedOp
    0 ⟨List.replicate 32 7, none, none, none⟩ [] [] [] (by decide) rfl).1 (by decide)

deriving instance DecidableEq for PluginLib

/-- A 32-byte logic code hash used by the concrete scenarios. -/
def hashH : List Nat := List.replicate 32 5

/-- A cell-dep environment holding one library whose token_logic entry
point returns status 5. -/
def plug5 : PluginEnv := ⟨fun h => if h = hashH then some ⟨some 5⟩ else none⟩

/-- Environment refuting C3: a non-owner transfer modifying the custom
field routes the logic hash to the execute set, and the invoked entry
point returns the non-zero status 5. -/
def cexEnv3 : ChainEnv where
  args := List.replicate 32 9
  input_lock_hashes := [List.replicate 32 8]
  group_input_data := [List.replicate 32 1 ++ natToLeBytes 16 10 ++ hashH ++ [65]]
  group_output_data := [List.replicate 32 1 ++ natToLeBytes 16 9 ++ hashH ++ [66]]
  script_hash := scriptHash3
  output_type_hashes := [some scriptHash3]
  first_input_outpoint := some seedOp
  plugins := plug5

/-- Counterexample to C3: the plugin returns the non-zero status 5, the
execute call ends in the panic carrying that status, and program_entry
never returns — in particular the process exit status is not the
propagated value 5 but whatever the external panic handler sets. -/
theorem claim_C3_counterexample :
    cexEnv3.plugins.load hashH = some ⟨some 5⟩ ∧
    validatorMain cexEnv3 =
      (.panicStatus 5, [.classify 0, .resolve hashH, .invoke hashH]) ∧
    program_entry cexEnv3 = none := by
  decide

/-- C3 amended: a zero entry-point status is accepted and invocation
continues normally; a non-zero status aborts the validation through a
panic carrying the status — it is not surfaced as an error of the
validator's taxonomy, and a panicking run never returns an exit status
through program_entry. -/
theorem claim_C3_amended (plug : PluginEnv) (h : List Nat) (lib : PluginLib) (s : Int)
    (hlen : h.length = 32) (hload : plug.load h = some lib)
    (hfn : lib.token_logic = some s) :
    (s = 0 → execute_token_logic plug h = (.ok, [.resolve h, .invoke h])) ∧
    (s ≠ 0 → execute_token_logic plug h = (.panicStatus s, [.resolve h, .invoke h]) ∧
      ∀ e : Error, (execute_token_logic plug h).1 ≠ .err e) ∧
    (∀ env : ChainEnv, (validatorMain env).1 = .panicStatus s → program_entry env = none) := by
  have hexec : execute_token_logic plug h =
      (if s ≠ 0 then .panicStatus s else .ok, [.resolve h, .invoke h]) := by
    unfold execute_token_logic
    rw [if_neg (by simp [hlen, TOKEN_LOGIC_LEN]), hload]
    simp only [hfn]
  refine ⟨fun hz => ?_, fun hnz => ⟨?_, ?_⟩, fun env henv => ?_⟩
  · rw [hexec, if_neg (by omega)]
  · rw [hexec, if_pos hnz]
  · rw [hexec, if_pos hnz]
    intro e
    simp
  · unfold program_entry
    rw [henv]

/-- Witness for the amended C3 with the status-5 plugin. -/
theorem claim_C3_amended_witness :
    execute_token_logic plug5 hashH = (.panicStatus 5, [.resolve hashH, .invoke hashH]) :=
  ((claim_C3_amended plug5 hashH ⟨some 5⟩ 5 (by decide) (by decide) rfl).2.1
    (by decide)).1

/-- Environment refuting C6: two generation outputs; the first stores the
correctly derived id but references a logic hash with no loadable cell
dep, the second stores a wrong id. -/
def cexEnv6 : ChainEnv where
  args := List.replicate 32 9
  input_lock_hashes := [List.replicate 32 9]
  group_input_data := [] 
  group_output_data :=
    [calculate_instance_id seedOp 0 ++ natToLeBytes 16 1 ++ hashH, List.replicate 32 7]
  script_hash := scriptHash3
  output_type_hashes := [some scriptHash3, some scriptHash3]
  first_input_outpoint := some seedOp
  plugins := noPlugins

set_option maxRecDepth 1000000 in
/-- Counterexample to C6: with two group outputs, the logic hash of the
first (generation) record is resolved inline — the run ends with
MissingTokenLogicCellDep and its trace holds a resolve event although
the second record was never classified, refuting that no plugin
resolution happens until after every group-output record has been
classified (and that a generation hash is merely marked validate-only). -/
theorem claim_C6_counterexample :
    cexEnv6.group_output_data.length = 2 ∧
    validatorMain cexEnv6 =
      (.err .MissingTokenLogicCellDep, [.classify 0, .resolve hashH]) := by
  decide

lemma mem_insertSorted {x a : List Nat} :
    ∀ {l : List (List Nat)}, a ∈ insertSorted x l → a = x ∨ a ∈ l := by
  intro l
  induction l with
  | nil =>
    intro h
    simpa [insertSorted] using h
  | cons y ys ih =>
    intro h
    unfold insertSorted at h
    split_ifs at h with h1 h2
    · simpa using h
    · exact .inr h
    · rw [List.mem_cons] at h
      rcases h with h | h
      · exact .inr (by simp [h])
      · rcases ih h with h3 | h3
        · exact .inl h3
        · exact .inr (by simp [h3])

lemma validate_token_logic_trace (plug : PluginEnv) (h : List Nat) :
    ∀ e ∈ (validate_token_logic plug h).2, e = Event.resolve h ∧ h ≠ CODE_HASH_NULL := by
  intro e he
  unfold validate_token_logic at he
  split_ifs at he with h1 h2
  · simp at he
  · simp at he
  · split at he
    · simp at he
      exact ⟨he, h2⟩
    · split at he
      · simp at he
        exact ⟨he, h2⟩
      · simp at he
        exact ⟨he, h2⟩

lemma execute_token_logic_trace (plug : PluginEnv) (h : List Nat) :
    ∀ e ∈ (execute_token_logic plug h).2, e = Event.resolve h ∨ e = Event.invoke h := by
  intro e he
  unfold execute_token_logic at he
  split_ifs at he with h1
  · simp at he
  · split at he
    · simp at he
      exact .inl he
    · split at he
      · simp at he
        exact .inl he
      · simp at he
        exact he.imp id id

lemma runValidateSet_trace (plug : PluginEnv) :
    ∀ (hs : List (List Nat)) (e : Event), e ∈ (runValidateSet plug hs).2 →
      ∃ h2, e = Event.resolve h2 ∧ h2 ≠ CODE_HASH_NULL := by
  intro hs
  induction hs with
  | nil =>
    intro e he
    simp [runValidateSet] at he
  | cons h hs ih =>
    intro e he
    unfold runValidateSet at he
    simp only [] at he
    split at he
    · simp at he
      rcases he with he | he
      · obtain ⟨h3, h4⟩ := validate_token_logic_trace plug h e he
        exact ⟨h, h3, h4⟩
      · exact ih e he
    · obtain ⟨h3, h4⟩ := validate_token_logic_trace plug h e (by simpa using he)
      exact ⟨h, h3, h4⟩

lemma runExecuteSet_trace (plug : PluginEnv) :
    ∀ (hs : List (List Nat)) (e : Event), e ∈ (runExecuteSet plug hs).2 →
      ∃ h2, h2 ∈ hs ∧ (e = Event.resolve h2 ∨ e = Event.invoke h2) := by
  intro hs
  induction hs with
  | nil =>
    intro e he
    simp [runExecuteSet] at he
  | cons h hs ih =>
    intro e he
    unfold runExecuteSet at he
    simp only [] at he
    split at he
    · simp at he
      rcases he with he | he
      · exact ⟨h, by simp, execute_token_logic_trace plug h e he⟩
      · obtain ⟨h2, hmem, hor⟩ := ih e he
        exact ⟨h2, by simp [hmem], hor⟩
    · exact ⟨h, by simp, execute_token_logic_trace plug h e (by simpa using he)⟩

lemma not_mem_insertSorted {x y : List Nat} {l : List (List Nat)}
    (hne : y ≠ x) (hnl : y ∉ l) : y ∉ insertSorted x l := by
  intro hmem
  rcases mem_insertSorted hmem with h | h
  · exact hne h
  · exact hnl h

lemma classifyOutputs_trace (plug : PluginEnv) (owner_mode : Bool)
    (gin gout : List NftData) (gids : List (List Nat)) (oidx : List Nat) (seed : OutPoint) :
    ∀ (recs : List (Nat × NftData)) (vset eset : List (List Nat)) (e : Event),
      e ∈ (classifyOutputs plug owner_mode gin gout gids oidx seed recs vset eset).2 →
      (∃ i, e = Event.classify i) ∨ ∃ h2, e = Event.resolve h2 ∧ h2 ≠ CODE_HASH_NULL := by
  intro recs
  induction recs with
  | nil =>
    intro vset eset e he
    simp [classifyOutputs] at he
  | cons p rest ih =>
    obtain ⟨index, od⟩ := p
    intro vset eset e he
    unfold classifyOutputs at he
    simp only [] at he
    split at he
    · split at he
      · simp at he
        exact .inl ⟨index, he⟩
      · split at he
        · simp at he
          exact .inl ⟨index, he⟩
        · simp at he
          rcases he with he | he
          · exact .inl ⟨index, he⟩
          · exact ih _ _ e he
    · split at he
      · simp at he
        exact .inl ⟨index, he⟩
      · split at he
        · simp at he
          exact .inl ⟨index, he⟩
        · split at he
          · split at he
            · simp at he
              rcases he with he | he | he
              · exact .inl ⟨index, he⟩
              · obtain ⟨h3, h4⟩ := validate_token_logic_trace plug _ e he
                exact .inr ⟨_, h3, h4⟩
              · exact ih _ _ e he
            · simp at he
              rcases he with he | he
              · exact .inl ⟨index, he⟩
              · obtain ⟨h3, h4⟩ := validate_token_logic_trace plug _ e he
                exact .inr ⟨_, h3, h4⟩
          · simp at he
            rcases he with he | he
            · exact .inl ⟨index, he⟩
            · exact ih _ _ e he

lemma classifyOutputs_eset_no_null (plug : PluginEnv) (owner_mode : Bool)
    (gin gout : List NftData) (gids : List (List Nat)) (oidx : List Nat) (seed : OutPoint) :
    ∀ (recs : List (Nat × NftData)) (vset eset : List (List Nat))
      (sets : List (List Nat) × List (List Nat)),
      CODE_HASH_NULL ∉ eset →
      (classifyOutputs plug owner_mode gin gout gids oidx seed recs vset eset).1 = .ok sets →
      CODE_HASH_NULL ∉ sets.2 := by
  intro recs
  induction recs with
  | nil =>
    intro vset eset sets hn h1
    unfold classifyOutputs at h1
    simp only [] at h1
    injection h1 with h1
    rw [← h1]
    exact hn
  | cons p rest ih =>
    obtain ⟨index, od⟩ := p
    intro vset eset sets hn h1
    unfold classifyOutputs at h1
    simp only [] at h1
    split at h1
    · split at h1
      · simp at h1
      · split at h1
        · simp at h1
        · simp only [] at h1
          split at h1
          · split at h1
            · split at h1
              · exact ih _ _ sets hn h1
              · rename_i htl hnonull hexe
                refine ih _ _ sets (not_mem_insertSorted (fun h2 => hnonull h2.symm) hn) h1
            · exact ih _ _ sets hn h1
          · exact ih _ _ sets hn h1
    · split at h1
      · simp at h1
      · split at h1
        · simp at h1
        · split at h1
          · split at h1
            · simp only [] at h1
              exact ih _ _ sets hn h1
            · rename_i hbad
              simp only [] at h1
              unfold TLRes.toRRes at h1
              split at h1
              · rename_i hv
                exact absurd hv hbad
              · exact RRes.noConfusion h1
              · exact RRes.noConfusion h1
              · exact RRes.noConfusion h1
          · exact ih _ _ sets hn h1

/-- The temporal dispatch discipline of one run: the null hash is never
resolved nor invoked, and the trace splits into a phase without any
invocation followed by a phase without any classification (all
invocations happen in the final execute phase, after every
classification that occurs in the run). -/
def DispatchDiscipline (tr : List Event) : Prop :=
  Event.resolve CODE_HASH_NULL ∉ tr ∧ Event.invoke CODE_HASH_NULL ∉ tr ∧
  ∃ tr1 tr2, tr = tr1 ++ tr2 ∧
    (∀ e ∈ tr1, ∀ hx : List Nat, e ≠ Event.invoke hx) ∧
    (∀ e ∈ tr2, ∀ i : Nat, e ≠ Event.classify i)

lemma dispatchDiscipline_nil : DispatchDiscipline [] :=
  ⟨by simp, by simp, [], [], by simp, by simp, by simp⟩

lemma dispatchDiscipline_of_no_invoke (tr : List Event)
    (h : ∀ e ∈ tr, (∃ i, e = Event.classify i) ∨
      ∃ h2, e = Event.resolve h2 ∧ h2 ≠ CODE_HASH_NULL) :
    DispatchDiscipline tr := by
  refine ⟨?_, ?_, tr, [], by simp, ?_, by simp⟩
  · intro hmem
    rcases h _ hmem with ⟨i, hi⟩ | ⟨h2, he, hn⟩
    · exact Event.noConfusion hi
    · injection he with he
      exact hn he.symm
  · intro hmem
    rcases h _ hmem with ⟨i, hi⟩ | ⟨h2, he, hn⟩
    · exact Event.noConfusion hi
    · exact Event.noConfusion he
  · intro e hmem hx
    rcases h e hmem with ⟨i, hi⟩ | ⟨h2, he, hn⟩
    · rw [hi]
      exact fun hcon => Event.noConfusion hcon
    · rw [he]
      exact fun hcon => Event.noConfusion hcon

lemma dispatchDiscipline_full (trc trv tre : List Event)
    (hc : ∀ e ∈ trc, (∃ i, e = Event.classify i) ∨
      ∃ h2, e = Event.resolve h2 ∧ h2 ≠ CODE_HASH_NULL)
    (hv : ∀ e ∈ trv, ∃ h2, e = Event.resolve h2 ∧ h2 ≠ CODE_HASH_NULL)
    (he : ∀ e ∈ tre, ∃ h2, h2 ≠ CODE_HASH_NULL ∧
      (e = Event.resolve h2 ∨ e = Event.invoke h2)) :
    DispatchDiscipline (trc ++ (trv ++ tre)) := by
  have hcv : ∀ e ∈ trc ++ trv, (∃ i, e = Event.classify i) ∨
      ∃ h2, e = Event.resolve h2 ∧ h2 ≠ CODE_HASH_NULL := by
    intro e hmem
    rcases List.mem_append.mp hmem with hm | hm
    · exact hc e hm
    · exact .inr (hv e hm)
  refine ⟨?_, ?_, trc ++ trv, tre, by rw [List.append_assoc], ?_, ?_⟩
  · intro hmem
    rcases List.mem_append.mp hmem with hm | hm
    · rcases hc _ hm with ⟨i, hi⟩ | ⟨h2, h3, hn⟩
      · exact Event.noConfusion hi
      · injection h3 with h3
        exact hn h3.symm
    · rcases List.mem_append.mp hm with hm2 | hm2
      · obtain ⟨h2, h3, hn⟩ := hv _ hm2
        injection h3 with h3
        exact hn h3.symm
      · obtain ⟨h2, hn, h3 | h3⟩ := he _ hm2
        · injection h3 with h3
          exact hn h3.symm
        · exact Event.noConfusion h3
  · intro hmem
    rcases List.mem_append.mp hmem with hm | hm
    · rcases hc _ hm with ⟨i, hi⟩ | ⟨h2, h3, hn⟩
      · exact Event.noConfusion hi
      · exact Event.noConfusion h3
    · rcases List.mem_append.mp hm with hm2 | hm2
      · obtain ⟨h2, h3, hn⟩ := hv _ hm2
        exact Event.noConfusion h3
      · obtain ⟨h2, hn, h3 | h3⟩ := he _ hm2
        · exact Event.noConfusion h3
        · injection h3 with h3
          exact hn h3.symm
  · intro e hmem hx
    rcases hcv e hmem with ⟨i, hi⟩ | ⟨h2, h3, hn⟩
    · rw [hi]
      exact fun hcon => Event.noConfusion hcon
    · rw [h3]
      exact fun hcon => Event.noConfusion hcon
  · intro e hmem i
    obtain ⟨h2, hn, h3 | h3⟩ := he e hmem
    · rw [h3]
      exact fun hcon => Event.noConfusion hcon
    · rw [h3]
      exact fun hcon => Event.noConfusion hcon

/-- C6 amended: in every run the all-zero hash is never resolved nor
invoked, and the event trace is a no-invocation phase (classification
with its inline generation-path validations, then the validate-only set)
followed by a no-classification phase (the execute set).  Unlike the
original claim, plugin resolution can already happen inline while a
generation record is classified, before later records are classified. -/
theorem claim_C6_amended (env : ChainEnv) : DispatchDiscipline (validatorMain env).2 := by
  unfold validatorMain
  split
  · exact dispatchDiscipline_nil
  · split
    · exact dispatchDiscipline_nil
    · split
      · exact dispatchDiscipline_nil
      · split
        · simp only []
          split
          · exact dispatchDiscipline_nil
          · exact dispatchDiscipline_nil
        · simp only []
          split
          · exact dispatchDiscipline_nil
          · split
            · rename_i sets tr heq
              have htr : ∀ e ∈ tr, (∃ i, e = Event.classify i) ∨
                  ∃ h2, e = Event.resolve h2 ∧ h2 ≠ CODE_HASH_NULL := by
                intro e hmem
                have hmem2 : e ∈ (RRes.ok sets, tr).2 := hmem
                rw [← heq] at hmem2
                exact classifyOutputs_trace _ _ _ _ _ _ _ _ _ _ e hmem2
              have h1 : (RRes.ok sets, tr).1 = RRes.ok sets := rfl
              rw [← heq] at h1
              split
              · have hnull : CODE_HASH_NULL ∉ sets.2 :=
                  classifyOutputs_eset_no_null _ _ _ _ _ _ _ _ _ _ sets (by simp) h1
                have hv2 : ∀ e ∈ (runValidateSet env.plugins sets.1).2,
                    ∃ h2, e = Event.resolve h2 ∧ h2 ≠ CODE_HASH_NULL :=
                  fun e hmem => runValidateSet_trace env.plugins sets.1 e hmem
                have he2 : ∀ e ∈ (runExecuteSet env.plugins sets.2).2,
                    ∃ h2, h2 ≠ CODE_HASH_NULL ∧
                      (e = Event.resolve h2 ∨ e = Event.invoke h2) := by
                  intro e hmem
                  obtain ⟨h2, hm2, hor⟩ := runExecuteSet_trace env.plugins sets.2 e hmem
                  exact ⟨h2, fun hcon => hnull (hcon ▸ hm2), hor⟩
                have hfull := dispatchDiscipline_full tr _ _ htr hv2 he2
                simpa [List.append_assoc] using hfull
              · refine dispatchDiscipline_of_no_invoke _ ?_
                intro e hmem
                rcases List.mem_append.mp hmem with hm | hm
                · exact htr e hm
                · exact .inr (runValidateSet_trace env.plugins sets.1 e hm)
            · rename_i e2 tr heq
              refine dispatchDiscipline_of_no_invoke tr ?_
              intro e hmem
              have hmem2 : e ∈ ((RRes.err e2 : RRes (List (List Nat) × List (List Nat))), tr).2 := hmem
              rw [← heq] at hmem2
              exact classifyOutputs_trace _ _ _ _ _ _ _ _ _ _ e hmem2
            · rename_i tr heq
              refine dispatchDiscipline_of_no_invoke tr ?_
              intro e hmem
              have hmem2 : e ∈ ((RRes.panicOverflow : RRes (List (List Nat) × List (List Nat))), tr).2 := hmem
              rw [← heq] at hmem2
              exact classifyOutputs_trace _ _ _ _ _ _ _ _ _ _ e hmem2
            · rename_i tr heq
              refine dispatchDiscipline_of_no_invoke tr ?_
              intro e hmem
              have hmem2 : e ∈ ((RRes.panicConversion : RRes (List (List Nat) × List (List Nat))), tr).2 := hmem
              rw [← heq] at hmem2
              exact classifyOutputs_trace _ _ _ _ _ _ _ _ _ _ e hmem2
            · rename_i c tr heq
              refine dispatchDiscipline_of_no_invoke tr ?_
              intro e hmem
              have hmem2 : e ∈ ((RRes.panicStatus c : RRes (List (List Nat) × List (List Nat))), tr).2 := hmem
              rw [← heq] at hmem2
              exact classifyOutputs_trace _ _ _ _ _ _ _ _ _ _ e hmem2
